import Mathlib

/-!
Shallow embedding of the VPP http_static plugin's content cache and
session engine (src/plugins/http_static/static_server.c).

Modelling conventions:
* `u8 *` vectors holding text or file bytes are modelled as `String`
  (`vec_len` becomes `String.length`); the explicit `%c 0` NUL
  terminators and the `_vec_len` truncation tricks in `handle_request`
  are reproduced by plain string concatenation on the NUL-free contents.
* the cache entry pool (`hsm->cache_pool`) is a `List (Option CacheEntry)`;
  a `none` slot is a freed slot.  `pool_elt_at_index` on a freed slot is
  undefined behaviour in C (an assertion in debug images); the model makes
  the surrounding operation a no-op in that case.
* `~0` sentinel indices become `Option Nat` with `none` as the sentinel.
* the `clib_bihash_vec8_8` path index (keys are pointers to u8 vectors,
  hashed and compared by vector contents) is an association list from the
  path contents to the entry index.
* `f64` timestamps only flow from `vlib_time_now` into `last_used` and are
  never branched on by the code modelled here, so they are carried as `Nat`.
* `inuse` is a `u32` refcount; it is carried as `Nat` (the code only ever
  decrements it for a session that actually holds the entry, where no
  underflow can occur).
-/

/-- One file cache entry (`hss_cache_entry_t`). -/
structure CacheEntry where
  filename : String
  data : String
  inuse : Nat
  last_used : Nat
  prev_index : Option Nat
  next_index : Option Nat
deriving Repr, DecidableEq

/-- The shared cache state inside `hss_main_t`: entry pool, LRU list ends,
path index, size accounting. -/
structure HssMain where
  cache_pool : List (Option CacheEntry)
  first_index : Option Nat
  last_index : Option Nat
  cache_size : Nat
  cache_limit : Nat
  cache_evictions : Nat
  name_to_data : List (String × Nat)
deriving Repr, DecidableEq

/-- Per-connection state (`hss_session_t`). -/
structure Session where
  session_index : Nat
  thread_index : Nat
  path : Option String
  data : Option String
  data_len : Nat
  data_offset : Nat
  free_data : Bool
  cache_pool_index : Option Nat
deriving Repr, DecidableEq

/-- `pool_elt_at_index`: fetch the record at a pool index (none if the
slot is freed or out of range). -/
def poolElt (pool : List (Option CacheEntry)) (i : Nat) : Option CacheEntry :=
  (pool.get? i).bind id

/-- Mutate the record at a live pool index in place; freed or out-of-range
slots are left untouched. -/
def poolUpdate (pool : List (Option CacheEntry)) (i : Nat)
    (f : CacheEntry → CacheEntry) : List (Option CacheEntry) :=
  match poolElt pool i with
  | none => pool
  | some ce => pool.set i (some (f ce))

/-- `pool_put`: return a slot to the free list. -/
def poolPut (pool : List (Option CacheEntry)) (i : Nat) : List (Option CacheEntry) :=
  pool.set i none

/-- `pool_get_zero`: obtain a slot (reusing a freed slot if one exists,
else growing the pool) and report its index.  The caller fills the record. -/
def poolGetZero (pool : List (Option CacheEntry)) : List (Option CacheEntry) × Nat :=
  match pool.findIdx? Option.isNone with
  | some i => (pool, i)
  | none => (pool ++ [none], pool.length)

/-- `lru_remove`: unlink entry `i` from the doubly linked LRU list,
fixing the list heads and the neighbours (static_server.c lines 172-201). -/
def lru_remove (hsm : HssMain) (i : Nat) : HssMain :=
  match poolElt hsm.cache_pool i with
  | none => hsm
  | some ep =>
    let hsm1 := if hsm.first_index = some i then { hsm with first_index := ep.next_index } else hsm
    let hsm2 := if hsm1.last_index = some i then { hsm1 with last_index := ep.prev_index } else hsm1
    let hsm3 :=
      match ep.next_index with
      | some ni =>
        let p := poolUpdate hsm2.cache_pool ni (fun e => { e with prev_index := ep.prev_index })
        { hsm2 with cache_pool := p }
      | none => hsm2
    match ep.prev_index with
    | some pi =>
      let p := poolUpdate hsm3.cache_pool pi (fun e => { e with next_index := ep.next_index })
      { hsm3 with cache_pool := p }
    | none => hsm3

/-- `lru_add`: link entry `i` at the head of the LRU list and stamp it
with `now` (static_server.c lines 205-237). -/
def lru_add (hsm : HssMain) (i : Nat) (now : Nat) : HssMain :=
  let hsm1 :=
    match hsm.first_index with
    | some fi =>
      let p := poolUpdate hsm.cache_pool fi (fun e => { e with prev_index := some i })
      { hsm with cache_pool := p }
    | none => hsm
  let p2 := poolUpdate hsm1.cache_pool i
    (fun e => { e with prev_index := none, next_index := hsm1.first_index })
  let hsm2 := { hsm1 with cache_pool := p2 }
  let hsm3 := { hsm2 with first_index := some i }
  let hsm4 := if hsm3.last_index.isNone then { hsm3 with last_index := some i } else hsm3
  { hsm4 with cache_pool := poolUpdate hsm4.cache_pool i (fun e => { e with last_used := now }) }

/-- `lru_update`: remove then re-add at the front. -/
def lru_update (hsm : HssMain) (i : Nat) (now : Nat) : HssMain :=
  lru_add (lru_remove hsm i) i now

/-- `clib_bihash_search` on the vec8_8 path index: contents-keyed lookup. -/
def bihashSearch (tbl : List (String × Nat)) (k : String) : Option Nat :=
  (tbl.find? (fun p => p.1 = k)).map (fun p => p.2)

/-- `clib_bihash_add_del` with `is_add = 1`: install (or overwrite) a key. -/
def bihashAdd (tbl : List (String × Nat)) (k : String) (v : Nat) : List (String × Nat) :=
  (k, v) :: tbl.filter (fun p => ¬ p.1 = k)

/-- `clib_bihash_add_del` with `is_add = 0`: delete a key (no-op beyond a
warning when the key is absent). -/
def bihashDel (tbl : List (String × Nat)) (k : String) : List (String × Nat) :=
  tbl.filter (fun p => ¬ p.1 = k)

/-- The body shared by the eviction scan (lines 527-544) and the clear
command (lines 1173-1188) once an entry has been selected for freeing:
delete its filename from the path index, unlink it from the LRU, account
the size, bump the eviction counter, free filename and data, return the
pool slot. -/
def evictOne (hsm : HssMain) (i : Nat) (ce : CacheEntry) : HssMain :=
  let hsm1 := { hsm with name_to_data := bihashDel hsm.name_to_data ce.filename }
  let hsm2 := lru_remove hsm1 i
  { hsm2 with
    cache_size := hsm2.cache_size - ce.data.length,
    cache_evictions := hsm2.cache_evictions + 1,
    cache_pool := poolPut hsm2.cache_pool i }

/-- The miss-path eviction loop of `handle_request` (lines 513-547).
`free_index` starts at `hsm->last_index`.  Note the `if (ce->inuse)`
branch in the source only emits a debug warning and falls through: the
entry is freed regardless of its reference count.  The loop breaks as
soon as `cache_size < cache_limit` (strict comparison, line 545). -/
def evictLoop : Nat → HssMain → Option Nat → HssMain
  | 0, hsm, _ => hsm
  | _ + 1, hsm, none => hsm
  | fuel + 1, hsm, some fi =>
    match poolElt hsm.cache_pool fi with
    | none => hsm
    | some ce =>
      let hsm1 := evictOne hsm fi ce
      if hsm1.cache_size < hsm1.cache_limit then hsm1
      else evictLoop fuel hsm1 ce.prev_index

/-- The `if (hsm->cache_size > hsm->cache_limit)` guard around the
eviction loop on the miss path (line 511). -/
def missEvict (hsm : HssMain) : HssMain :=
  if hsm.cache_size > hsm.cache_limit then
    evictLoop (hsm.cache_pool.length + 1) hsm hsm.last_index
  else hsm

/-- Spec-side rendering of the eviction scan with the source's strict
stop comparison: repeatedly evict the current oldest (LRU tail) entry;
stop as soon as `cache_size < cache_limit` or the list is exhausted. -/
def evictScanSpecLt : Nat → HssMain → HssMain
  | 0, hsm => hsm
  | fuel + 1, hsm =>
    match hsm.last_index with
    | none => hsm
    | some oldest =>
      match poolElt hsm.cache_pool oldest with
      | none => hsm
      | some ce =>
        let hsm1 := evictOne hsm oldest ce
        if hsm1.cache_size < hsm1.cache_limit then hsm1
        else evictScanSpecLt fuel hsm1

/-- Spec-side rendering of the eviction scan as the claim words it:
repeatedly evict the oldest entry, stopping as soon as
`cache_size ≤ cache_limit` or the list is exhausted. -/
def evictScanSpecLe : Nat → HssMain → HssMain
  | 0, hsm => hsm
  | fuel + 1, hsm =>
    match hsm.last_index with
    | none => hsm
    | some oldest =>
      match poolElt hsm.cache_pool oldest with
      | none => hsm
      | some ce =>
        let hsm1 := evictOne hsm oldest ce
        if hsm1.cache_size ≤ hsm1.cache_limit then hsm1
        else evictScanSpecLe fuel hsm1

/-- Spec-side rendering of the guarded miss-path scan with the source's
strict stop comparison. -/
def missEvictSpecLt (hsm : HssMain) : HssMain :=
  if hsm.cache_size > hsm.cache_limit then
    evictScanSpecLt (hsm.cache_pool.length + 1) hsm
  else hsm

/-- Spec-side rendering of the guarded miss-path scan as the claim words
it: stop as soon as `cache_size ≤ cache_limit`. -/
def missEvictSpecLe (hsm : HssMain) : HssMain :=
  if hsm.cache_size > hsm.cache_limit then
    evictScanSpecLe (hsm.cache_pool.length + 1) hsm
  else hsm

/-- The loop of `hss_clear_cache_command_fn` (lines 1161-1190).
On a busy entry the source sets `free_index = ce->next_index` (the
direction of older entries) and continues; after freeing an entry it
restarts from `hsm->last_index`.  The dead store `free_index =
ce->prev_index` before the branch is omitted (both branches overwrite
it). -/
def clearLoop : Nat → HssMain → Option Nat → Nat → HssMain × Nat
  | 0, hsm, _, busy => (hsm, busy)
  | _ + 1, hsm, none, busy => (hsm, busy)
  | fuel + 1, hsm, some fi, busy =>
    match poolElt hsm.cache_pool fi with
    | none => (hsm, busy)
    | some ce =>
      if ce.inuse ≠ 0 then
        clearLoop fuel hsm ce.next_index (busy + 1)
      else
        let hsm1 := evictOne hsm fi ce
        clearLoop fuel hsm1 hsm1.last_index busy

/-- `clear http static cache`: run the walk from `hsm->last_index` with a
zero busy count and report the final state and busy count. -/
def clearCommand (hsm : HssMain) : HssMain × Nat :=
  clearLoop (hsm.cache_pool.length + 1) hsm hsm.last_index 0

/-- Spec-side rendering of what the clear walk actually computes:
repeatedly free the current oldest (LRU tail) entry while it is
unreferenced; stop at the first in-use tail entry, counting it busy. -/
def clearScanSpec : Nat → HssMain → Nat → HssMain × Nat
  | 0, hsm, busy => (hsm, busy)
  | fuel + 1, hsm, busy =>
    match hsm.last_index with
    | none => (hsm, busy)
    | some oldest =>
      match poolElt hsm.cache_pool oldest with
      | none => (hsm, busy)
      | some ce =>
        if ce.inuse ≠ 0 then (hsm, busy + 1)
        else clearScanSpec fuel (evictOne hsm oldest ce) busy

/-- Spec-side clear command. -/
def clearCommandSpec (hsm : HssMain) : HssMain × Nat :=
  clearScanSpec (hsm.cache_pool.length + 1) hsm 0

/-- Well-formedness fragment used to relate the walks: the LRU tail, when
live, has no forward (older) neighbour. -/
def tailNextNone (hsm : HssMain) : Bool :=
  match hsm.last_index with
  | none => true
  | some t =>
    match poolElt hsm.cache_pool t with
    | none => true
    | some ce => ce.next_index = none

/-- Framing mode of a reply record (`msg.data.type`). -/
inductive DataKind
  | inline
  | ptr
deriving Repr, DecidableEq

/-- A framed reply record (`http_msg_t` with `type = HTTP_MSG_REPLY` and
`content_type = HTTP_CONTENT_TEXT_HTML`). -/
structure ReplyRecord where
  code : Nat
  kind : DataKind
  len : Nat
deriving Repr, DecidableEq

/-- One thing enqueued on the transmit fifo by `start_send_data`. -/
inductive TxItem
  | record (r : ReplyRecord)
  | ptrWord
  | bytes (s : String)
deriving Repr, DecidableEq

/-- Truncate a string to its first `n` characters (the partial fifo
enqueue accepting a prefix). -/
def strTake (n : Nat) (s : String) : String :=
  ⟨s.data.take n⟩

/-- `start_send_data` (lines 248-295).  `thresh` is
`hss_main.use_ptr_thresh`; `bodyCap` is the free space the tx fifo offers
to the inline body enqueue (the record enqueues are asserted to succeed in
the source).  Returns the enqueued items, the updated session, and
whether a dequeue notification was requested. -/
def startSendData (thresh : Nat) (hs : Session) (status : Nat) (bodyCap : Nat) :
    List TxItem × Session × Bool :=
  if hs.data_len > thresh then
    ([TxItem.record ⟨status, DataKind.ptr, hs.data_len⟩, TxItem.ptrWord], hs, false)
  else
    let rec0 := TxItem.record ⟨status, DataKind.inline, hs.data_len⟩
    if hs.data_len = 0 then ([rec0], hs, false)
    else
      let rv := min bodyCap hs.data_len
      let items := [rec0, TxItem.bytes (strTake rv (hs.data.getD ""))]
      if rv ≠ hs.data_len then
        (items, { hs with data_offset := rv }, true)
      else (items, hs, false)

/-- Request methods as dispatched by the engine (`http_req_method_t`;
`other` stands for any method that is neither GET nor POST). -/
inductive ReqMethod
  | get
  | post
  | other
deriving Repr, DecidableEq

/-- Message types on the rx fifo (`http_msg_t.type`). -/
inductive MsgType
  | request
  | reply
deriving Repr, DecidableEq

/-- A framed request header record as dequeued by `hss_ts_rx_callback`. -/
structure HttpMsg where
  type : MsgType
  method : ReqMethod
  dataLen : Nat
deriving Repr, DecidableEq

/-- Outcome of a registered URL handler (`hss_url_handler_rc_t` together
with the output fields the handler filled in). -/
inductive UrlOutcome
  | async
  | ok (data : Option String) (len : Nat) (free : Bool)
  | err (data : Option String) (len : Nat) (free : Bool)

/-- `struct stat` results the resolver looks at. -/
structure StatInfo where
  size : Nat
  isReg : Bool
deriving Repr, DecidableEq

/-- Transport protocols distinguished by the redirect builder. -/
inductive Proto
  | tcp
  | tls
  | otherProto
deriving Repr, DecidableEq

/-- The environment `handle_request` runs against: configuration, URL
handler tables, the filesystem (stat and full read), the clock, and the
transport endpoint data used by the redirect builder. -/
structure Env where
  enable_url_handlers : Bool
  www_root : Option String
  urlGet : String → Option UrlOutcome
  urlPost : String → Option UrlOutcome
  statO : String → Option StatInfo
  fileO : String → Option String
  now : Nat
  use_ptr_thresh : Nat
  bodyCap : Nat
  ipStr : String
  port : Nat
  proto : Proto

/-- Result of one engine entry point: new shared state, new session
state, fifo items, dequeue-notification flag, whether
`hss_session_disconnect_transport` was invoked, and the status code the
request handler computed. -/
structure HROut where
  hsm : HssMain
  hs : Session
  items : List TxItem
  ntf : Bool
  disconnected : Bool
  sc : Nat
deriving Repr

/-- The `done:` tail of `handle_request` (lines 588-594): send, and
disconnect the transport when `hs->data` is null. -/
def hrDone (env : Env) (hsm : HssMain) (hs : Session) (sc : Nat) : HROut :=
  let r := startSendData env.use_ptr_thresh hs sc env.bodyCap
  ⟨hsm, r.2.1, r.1, r.2.2, r.2.1.data.isNone, sc⟩

/-- The file-too-small / wrong-type / stat-failure test of the resolver
(lines 403-405): the attempt fails unless stat succeeds on a regular
file of at least 20 bytes. -/
def fileOk (st : Option StatInfo) : Bool :=
  match st with
  | none => false
  | some s => decide (20 ≤ s.size) && s.isReg

/-- Drop the first `n` characters of a string (the `vec_delete` of the
`www_root` prefix in the redirect builder). -/
def strDrop (n : Nat) (s : String) : String :=
  ⟨s.data.drop n⟩

/-- Path construction (lines 392-397): `www_root + request` when the
request begins with '/' (`request[0] == '/'`), `www_root + "/" + request`
otherwise, and bare `www_root` when the request is absent. -/
def mkPath (wwwRoot : String) (request : Option String) : String :=
  match request with
  | none => wwwRoot
  | some r => if r.data.head? = some '/' then wwwRoot ++ r else wwwRoot ++ "/" ++ r

/-- The 301 redirect bytes (lines 428-462): `https` scheme iff the
transport is TLS; the port is printed unless it is TCP port 80 or TLS
port 443; `locPath` is the stat'd path with the `www_root` prefix
deleted. -/
def buildRedirect (proto : Proto) (ipStr : String) (port : Nat) (locPath : String) : String :=
  let printPort : Bool :=
    (proto = Proto.tcp && port ≠ 80) || (proto = Proto.tls && port ≠ 443)
  "HTTP/1.1 301 Moved Permanently\r\nLocation: http" ++
    (if proto = Proto.tls then "s" else "") ++ "://" ++ ipStr ++
    (if printPort then ":" ++ toString port else "") ++ locPath ++ "\r\n\r\n"

/-- The cache-hit half of the "first, try the cache" block
(lines 489-502): take the entry's bytes, refresh its LRU position,
record the handle, bump the reference count. -/
def acquireCacheHit (hsm : HssMain) (hs : Session) (idx : Nat) (now : Nat)
    (ce : CacheEntry) : HssMain × Session :=
  let hs1 := { hs with data := some ce.data }
  let hsm1 := lru_update hsm idx now
  let hs2 := { hs1 with cache_pool_index := some idx }
  let p := poolUpdate hsm1.cache_pool idx (fun e => { e with inuse := e.inuse + 1 })
  let hsm2 := { hsm1 with cache_pool := p }
  (hsm2, hs2)

/-- The miss half (lines 505-584): maybe evict, read the file, install a
new entry at the LRU front and in the path index, account the size. -/
def cacheMiss (env : Env) (hsm : HssMain) (hs : Session) (path : String) : HROut :=
  let hsm1 := missEvict hsm
  match env.fileO path with
  | none => hrDone env hsm1 hs 500
  | some bytes =>
    let hs1 := { hs with data := some bytes }
    let pg := poolGetZero hsm1.cache_pool
    let idx := pg.2
    let ce : CacheEntry :=
      { filename := path, data := bytes, inuse := 1,
        last_used := 0, prev_index := none, next_index := none }
    let hsm2 := { hsm1 with cache_pool := pg.1.set idx (some ce) }
    let hs2 := { hs1 with cache_pool_index := some idx }
    let hsm3 := lru_add hsm2 idx env.now
    let hsm4 := { hsm3 with name_to_data := bihashAdd hsm3.name_to_data path idx }
    let hsm5 := { hsm4 with cache_size := hsm4.cache_size + bytes.length }
    hrDone env hsm5 { hs2 with data_offset := 0 } 200

/-- The "find or read the file" block (lines 475-586), entered with the
resolved filesystem path.  Skipped entirely when the session already
carries data. -/
def hrCache (env : Env) (hsm : HssMain) (hs : Session) (path : String) : HROut :=
  if hs.data.isSome then hrDone env hsm hs 200
  else
    let hs1 := { hs with path := some path }
    match bihashSearch hsm.name_to_data path with
    | some idx =>
      match poolElt hsm.cache_pool idx with
      | none => hrDone env hsm hs1 200
      | some ce =>
        let r := acquireCacheHit hsm hs1 idx env.now ce
        hrDone env r.1 { r.2 with data_offset := 0 } 200
    | none => cacheMiss env hsm hs1 path

/-- `try_url_handler` (lines 313-368).  `none` means not handled
(handlers disabled, request absent, or no table entry). -/
def tryUrlHandler (env : Env) (hsm : HssMain) (hs : Session) (rt : ReqMethod)
    (request : Option String) : Option HROut :=
  if ¬ env.enable_url_handlers then none
  else
    match request with
    | none => none
    | some req =>
      match (if rt = ReqMethod.get then env.urlGet req else env.urlPost req) with
      | none => none
      | some outcome =>
        let hs1 := { hs with path := none, data_offset := 0, cache_pool_index := none }
        match outcome with
        | UrlOutcome.async => some ⟨hsm, hs1, [], false, false, 200⟩
        | UrlOutcome.ok d l f =>
          let hs2 := { hs1 with data := d, data_len := l, free_data := f }
          let r := startSendData env.use_ptr_thresh hs2 200 env.bodyCap
          some ⟨hsm, r.2.1, r.1, r.2.2, r.2.1.data.isNone, 200⟩
        | UrlOutcome.err d l f =>
          let hs2 := { hs1 with data := d, data_len := l, free_data := f }
          let r := startSendData env.use_ptr_thresh hs2 404 env.bodyCap
          some ⟨hsm, r.2.1, r.1, r.2.2, r.2.1.data.isNone, 404⟩

/-- `handle_request` (lines 370-595). -/
def handleRequest (env : Env) (hsm : HssMain) (hs : Session) (rt : ReqMethod)
    (request : Option String) : HROut :=
  match tryUrlHandler env hsm hs rt request with
  | some out => out
  | none =>
    match env.www_root with
    | none => hrDone env hsm hs 404
    | some w =>
      let p1 := mkPath w request
      if fileOk (env.statO p1) then hrCache env hsm hs p1
      else if fileOk (env.statO (p1 ++ "index.html")) then
        hrCache env hsm hs (p1 ++ "index.html")
      else if fileOk (env.statO (p1 ++ "/index.html")) then
        let p3 := p1 ++ "/index.html"
        let redirect := buildRedirect env.proto env.ipStr env.port (strDrop w.length p3)
        hrDone env hsm { hs with data := some redirect } 200
      else hrDone env hsm hs 404

/-- `hss_ts_rx_callback` (lines 597-633): dequeue the framed header; on a
non-request type or a method other than GET/POST, send an empty 405 and
return; otherwise dequeue the request string and run `handle_request`.
`rxBytes` stands for the request-string bytes behind the header. -/
def hssTsRxCallback (env : Env) (hsm : HssMain) (hs : Session) (msg : HttpMsg)
    (rxBytes : String) : HROut :=
  if msg.type ≠ MsgType.request ∨
      (msg.method ≠ ReqMethod.get ∧ msg.method ≠ ReqMethod.post) then
    let hs1 := { hs with data := none }
    let r := startSendData env.use_ptr_thresh hs1 405 env.bodyCap
    ⟨hsm, r.2.1, r.1, r.2.2, false, 405⟩
  else
    let request : Option String :=
      if msg.dataLen ≠ 0 then some (strTake msg.dataLen rxBytes) else none
    handleRequest env hsm hs msg.method request

/-- Resources released by `hss_detach_cache_entry` / session teardown. -/
inductive FreedRes
  | dataBuf
  | pathBuf
deriving Repr, DecidableEq

/-- `hss_detach_cache_entry` (lines 86-112): drop the cache reference if
one is held, free the owned response buffer (`vec_free` of a null vector
frees nothing), reset the send fields, free the path. -/
def hssDetachCacheEntry (hsm : HssMain) (hs : Session) :
    HssMain × Session × List FreedRes :=
  let hsm1 :=
    match hs.cache_pool_index with
    | some i =>
      let p := poolUpdate hsm.cache_pool i (fun e => { e with inuse := e.inuse - 1 })
      { hsm with cache_pool := p }
    | none => hsm
  let freed :=
    (if hs.free_data && hs.data.isSome then [FreedRes.dataBuf] else []) ++
    (if hs.path.isSome then [FreedRes.pathBuf] else [])
  let hs1 := { hs with cache_pool_index := none, data := none, data_offset := 0,
                       free_data := false, path := none }
  (hsm1, hs1, freed)

/-- Cleanup notification kinds (`session_cleanup_ntf_t`). -/
inductive CleanupKind
  | transport
  | session
deriving Repr, DecidableEq

/-- `hss_ts_cleanup` (lines 732-746): nothing on the transport
notification; on the final notification, detach the cache entry and
return the session slot (`none`) to the pool. -/
def hssTsCleanup (hsm : HssMain) (slot : Option Session) (ntf : CleanupKind) :
    HssMain × Option Session × List FreedRes :=
  match ntf with
  | CleanupKind.transport => (hsm, slot, [])
  | CleanupKind.session =>
    match slot with
    | none => (hsm, none, [])
    | some hs =>
      let r := hssDetachCacheEntry hsm hs
      (r.1, none, r.2.2)

/-- `hss_session_alloc` (lines 45-56): a zeroed record with its index and
thread recorded and `cache_pool_index` set to the none sentinel. -/
def hssSessionAlloc (idx thread : Nat) : Session :=
  { session_index := idx, thread_index := thread, path := none, data := none,
    data_len := 0, data_offset := 0, free_data := false, cache_pool_index := none }

/-- Inputs of `hss_create_command_fn` after CLI parsing (lines 898-985):
whether a server is already attached, whether the parse loop hit an
unknown token, the parsed configuration, and the result of
`hss_create`. -/
structure CreateInput where
  already_running : Bool
  parse_error : Bool
  www_root : Option String
  enable_url_handlers : Bool
  cache_limit : Nat
  create_rv : Int
deriving Repr, DecidableEq

/-- Result of the start command: `ok`, or a textual CLI error. -/
inductive CreateResult
  | ok
  | err (msg : String)
deriving Repr, DecidableEq

/-- `hss_create_command_fn` control flow, together with whether
`hss_create` ran and succeeded (the server exists afterwards). -/
def hssCreateCommand (inp : CreateInput) : CreateResult × Bool :=
  if inp.already_running then (CreateResult.err "http server already running...", false)
  else if inp.parse_error then (CreateResult.err "unknown input", false)
  else if inp.www_root.isNone && !inp.enable_url_handlers then
    (CreateResult.err "Must set www-root or url-handlers", false)
  else if inp.cache_limit < 128 * 1024 then
    (CreateResult.err "cache-size must be at least 128kb", false)
  else if inp.create_rv ≠ 0 then (CreateResult.err "server_create returned", false)
  else (CreateResult.ok, true)

/-! Concrete states and environments used to exercise the model. -/

/-- A cache state holding one 4-byte entry `/w/a` that a session still
references (`inuse = 1`), with the size over the limit so that the next
miss triggers the eviction scan. -/
def entryInuse : CacheEntry :=
  { filename := "/w/a", data := "aaaa", inuse := 1, last_used := 0,
    prev_index := none, next_index := none }

def hsmInuse : HssMain :=
  { cache_pool := [some entryInuse],
    first_index := some 0, last_index := some 0,
    cache_size := 4, cache_limit := 2, cache_evictions := 0,
    name_to_data := [("/w/a", 0)] }

/-- Environment for the in-use-eviction run: `www_root = "/w"`, no URL
handlers, and the filesystem holds only `/w/b` (30 bytes statted, 4 bytes
on read). -/
def envInuse : Env :=
  { enable_url_handlers := false, www_root := some "/w",
    urlGet := fun _ => none, urlPost := fun _ => none,
    statO := fun p => if p = "/w/b" then some { size := 30, isReg := true } else none,
    fileO := fun p => if p = "/w/b" then some "bbbb" else none,
    now := 7, use_ptr_thresh := 100, bodyCap := 100,
    ipStr := "1.2.3.4", port := 80, proto := Proto.tcp }

/-- A freshly accepted session (slot 0, worker 0). -/
def freshSession : Session := hssSessionAlloc 0 0

/-- Environment for the redirect run: only `/w/d/index.html` exists, the
transport is TCP on port 80 at local address 1.2.3.4. -/
def envRedirect : Env :=
  { enable_url_handlers := false, www_root := some "/w",
    urlGet := fun _ => none, urlPost := fun _ => none,
    statO := fun p => if p = "/w/d/index.html" then some { size := 30, isReg := true } else none,
    fileO := fun _ => none,
    now := 7, use_ptr_thresh := 100, bodyCap := 100,
    ipStr := "1.2.3.4", port := 80, proto := Proto.tcp }

/-- An empty cache. -/
def hsmEmpty : HssMain :=
  { cache_pool := [], first_index := none, last_index := none,
    cache_size := 0, cache_limit := 100, cache_evictions := 0, name_to_data := [] }

/-- A cache whose oldest (LRU tail) entry is in use while a newer entry
is unreferenced: LRU front = entry 1, tail = entry 0. -/
def entryOldBusy : CacheEntry :=
  { filename := "old", data := "old", inuse := 1, last_used := 1,
    prev_index := some 1, next_index := none }

def entryNewFree : CacheEntry :=
  { filename := "new", data := "new", inuse := 0, last_used := 2,
    prev_index := none, next_index := some 0 }

def hsmBusyTail : HssMain :=
  { cache_pool := [some entryOldBusy, some entryNewFree],
    first_index := some 1, last_index := some 0,
    cache_size := 6, cache_limit := 100, cache_evictions := 0,
    name_to_data := [("old", 0), ("new", 1)] }

/-- Three unreferenced 2-byte entries (oldest `aa`, then `bb`, newest
`cc`) with `cache_size = 6` and `cache_limit = 4`: after evicting `aa`
the size equals the limit exactly. -/
def entryAA : CacheEntry :=
  { filename := "aa", data := "aa", inuse := 0, last_used := 1,
    prev_index := some 1, next_index := none }

def entryBB : CacheEntry :=
  { filename := "bb", data := "bb", inuse := 0, last_used := 2,
    prev_index := some 2, next_index := some 0 }

def entryCC : CacheEntry :=
  { filename := "cc", data := "cc", inuse := 0, last_used := 3,
    prev_index := none, next_index := some 1 }

def hsmExactLimit : HssMain :=
  { cache_pool := [some entryAA, some entryBB, some entryCC],
    first_index := some 2, last_index := some 0,
    cache_size := 6, cache_limit := 4, cache_evictions := 0,
    name_to_data := [("aa", 0), ("bb", 1), ("cc", 2)] }

/-- A session holding cache entry 0 of `hsmInuse`. -/
def holdingSession : Session :=
  { session_index := 1, thread_index := 0, path := some "/w/a",
    data := some "aaaa", data_len := 0, data_offset := 0,
    free_data := false, cache_pool_index := some 0 }

/-- A non-request message (method PUT stands for any method that is
neither GET nor POST). -/
def msgPut : HttpMsg := { type := MsgType.request, method := ReqMethod.other, dataLen := 0 }


/-! Helper lemmas about the pool primitives and the LRU operations. -/

theorem poolElt_lt_length {pool : List (Option CacheEntry)} {i : Nat} {ce : CacheEntry}
    (h : poolElt pool i = some ce) : i < pool.length := by
  by_contra hn
  push_neg at hn
  rw [poolElt, List.get?_eq_none.mpr hn] at h
  exact Option.noConfusion h

theorem poolElt_set_other (pool : List (Option CacheEntry)) (i j : Nat)
    (v : Option CacheEntry) (h : i ≠ j) : poolElt (pool.set i v) j = poolElt pool j := by
  rw [poolElt, List.get?_set_ne v pool h, poolElt]

theorem poolElt_set_self {pool : List (Option CacheEntry)} {i : Nat}
    (v : Option CacheEntry) (h : i < pool.length) : poolElt (pool.set i v) i = v := by
  rw [poolElt, List.get?_set_eq_of_lt v h]
  rfl

theorem poolElt_poolUpdate_other (pool : List (Option CacheEntry)) (i j : Nat)
    (f : CacheEntry → CacheEntry) (h : i ≠ j) :
    poolElt (poolUpdate pool i f) j = poolElt pool j := by
  unfold poolUpdate
  cases hc : poolElt pool i with
  | none => rfl
  | some ce => exact poolElt_set_other _ _ _ _ h

theorem poolElt_poolUpdate_self (pool : List (Option CacheEntry)) (i : Nat)
    (f : CacheEntry → CacheEntry) :
    poolElt (poolUpdate pool i f) i = (poolElt pool i).map f := by
  unfold poolUpdate
  cases hc : poolElt pool i with
  | none => simp [hc]
  | some ce => simp [hc, poolElt_set_self _ (poolElt_lt_length hc)]

/-- `lru_remove` of the current tail moves `last_index` to the removed
entry's `prev_index`. -/
theorem lru_remove_last {hsm : HssMain} {t : Nat} {ep : CacheEntry}
    (h1 : poolElt hsm.cache_pool t = some ep) (h2 : hsm.last_index = some t) :
    (lru_remove hsm t).last_index = ep.prev_index := by
  unfold lru_remove
  rw [h1]
  by_cases hf : hsm.first_index = some t <;>
    cases hn : ep.next_index <;> cases hp : ep.prev_index <;>
      simp [hf, h2, hn, hp]

/-- `evictOne` of the current tail moves `last_index` to the evicted
entry's `prev_index`. -/
theorem evictOne_last {hsm : HssMain} {t : Nat} {ce : CacheEntry}
    (h1 : poolElt hsm.cache_pool t = some ce) (h2 : hsm.last_index = some t) :
    (evictOne hsm t ce).last_index = ce.prev_index := by
  unfold evictOne
  exact @lru_remove_last { hsm with name_to_data := bihashDel hsm.name_to_data ce.filename } t ce h1 h2

/-- The miss-path eviction loop, started from the LRU tail, computes the
same state as the spec-level tail scan with the source's strict stop
comparison. -/
theorem evictLoop_eq_spec : ∀ (fuel : Nat) (hsm : HssMain),
    evictLoop fuel hsm hsm.last_index = evictScanSpecLt fuel hsm := by
  intro fuel
  induction fuel with
  | zero =>
    intro hsm
    cases h : hsm.last_index <;> rfl
  | succ n ih =>
    intro hsm
    unfold evictLoop evictScanSpecLt
    cases h : hsm.last_index with
    | none => rfl
    | some t =>
      cases hc : poolElt hsm.cache_pool t with
      | none => simp only [hc]
      | some ce =>
        simp only [hc]
        by_cases hstop : (evictOne hsm t ce).cache_size < (evictOne hsm t ce).cache_limit
        · rw [if_pos hstop, if_pos hstop]
        · rw [if_neg hstop, if_neg hstop, ← evictOne_last hc h, ih]

theorem poolUpdate_length (pool : List (Option CacheEntry)) (i : Nat)
    (f : CacheEntry → CacheEntry) : (poolUpdate pool i f).length = pool.length := by
  unfold poolUpdate
  cases poolElt pool i <;> simp

/-- The pool contents after `lru_remove`, as a function of the removed
entry's neighbour links. -/
theorem lru_remove_pool (hsm : HssMain) (i : Nat) :
    (lru_remove hsm i).cache_pool =
      match poolElt hsm.cache_pool i with
      | none => hsm.cache_pool
      | some ep =>
        let p1 :=
          match ep.next_index with
          | some ni => poolUpdate hsm.cache_pool ni (fun e => { e with prev_index := ep.prev_index })
          | none => hsm.cache_pool
        match ep.prev_index with
        | some pi => poolUpdate p1 pi (fun e => { e with next_index := ep.next_index })
        | none => p1 := by
  unfold lru_remove
  cases h : poolElt hsm.cache_pool i with
  | none => rfl
  | some ep =>
    by_cases hf : hsm.first_index = some i <;> by_cases hl : hsm.last_index = some i <;>
      cases hn : ep.next_index <;> cases hp : ep.prev_index <;>
        simp [hf, hl, hn, hp]

/-- `evictOne` leaves the pool as `lru_remove` does, with the freed slot
cleared. -/
theorem evictOne_pool (hsm : HssMain) (i : Nat) (ce : CacheEntry) :
    (evictOne hsm i ce).cache_pool =
      poolPut (lru_remove { hsm with name_to_data := bihashDel hsm.name_to_data ce.filename } i).cache_pool i := rfl

theorem clearLoop_none (fuel : Nat) (hsm : HssMain) (busy : Nat) :
    clearLoop fuel hsm none busy = (hsm, busy) := by
  cases fuel <;> rfl

/-- Evicting the LRU tail preserves the property that the (new) tail has
no forward neighbour. -/
theorem evictOne_tailNextNone {hsm : HssMain} {t : Nat} {ce : CacheEntry}
    (h1 : poolElt hsm.cache_pool t = some ce) (h2 : hsm.last_index = some t)
    (h3 : ce.next_index = none) :
    tailNextNone (evictOne hsm t ce) = true := by
  have hlast : (evictOne hsm t ce).last_index = ce.prev_index := evictOne_last h1 h2
  have h1' : poolElt ({ hsm with name_to_data := bihashDel hsm.name_to_data ce.filename } : HssMain).cache_pool t = some ce := h1
  have hpool : (evictOne hsm t ce).cache_pool =
      poolPut (match ce.prev_index with
        | some pi => poolUpdate hsm.cache_pool pi (fun e => { e with next_index := ce.next_index })
        | none => hsm.cache_pool) t := by
    rw [evictOne_pool, lru_remove_pool]
    rw [h1']
    simp only [h3]
  unfold tailNextNone
  rw [hlast]
  cases hp : ce.prev_index with
  | none => rfl
  | some p =>
    rw [hp] at hpool
    dsimp only at hpool
    dsimp only
    rw [hpool]
    by_cases hpt : p = t
    · subst hpt
      have hlen : p < (poolUpdate hsm.cache_pool p (fun e => { e with next_index := ce.next_index })).length := by
        rw [poolUpdate_length]
        exact poolElt_lt_length h1
      have hput : poolElt (poolPut (poolUpdate hsm.cache_pool p
          (fun e => { e with next_index := ce.next_index })) p) p = none := by
        unfold poolPut
        exact poolElt_set_self none hlen
      rw [hput]
    · have hstep : poolElt (poolPut (poolUpdate hsm.cache_pool p
          (fun e => { e with next_index := ce.next_index })) t) p =
          poolElt (poolUpdate hsm.cache_pool p (fun e => { e with next_index := ce.next_index })) p :=
        poolElt_set_other _ _ _ _ (fun hh => hpt hh.symm)
      rw [hstep, poolElt_poolUpdate_self]
      cases poolElt hsm.cache_pool p with
      | none => rfl
      | some e2 => simp [h3]

/-- The clear walk, started from the LRU tail of a state whose tail has
no forward neighbour, matches the spec-level tail scan that stops at the
first in-use entry. -/
theorem clearLoop_eq_spec : ∀ (fuel : Nat) (hsm : HssMain) (busy : Nat),
    tailNextNone hsm = true →
    clearLoop fuel hsm hsm.last_index busy = clearScanSpec fuel hsm busy := by
  intro fuel
  induction fuel with
  | zero =>
    intro hsm busy _
    cases h : hsm.last_index <;> rfl
  | succ n ih =>
    intro hsm busy htl
    unfold clearLoop clearScanSpec
    cases h : hsm.last_index with
    | none => rfl
    | some t =>
      cases hc : poolElt hsm.cache_pool t with
      | none => simp only [hc]
      | some ce =>
        simp only [hc]
        have hnext : ce.next_index = none := by
          unfold tailNextNone at htl
          simp only [h, hc] at htl
          simpa using htl
        by_cases hbusy : ce.inuse ≠ 0
        · rw [if_pos hbusy, hnext, clearLoop_none, if_pos hbusy]
        · rw [if_neg hbusy, if_neg hbusy]
          rw [← ih (evictOne hsm t ce) busy (evictOne_tailNextNone hc h hnext)]

/-- Claim C1 (code defect exhibited): on the miss-path eviction scan, a
live cache entry with `inuse = 1` (still referenced by a session) is
freed anyway.  Starting from `hsmInuse` (entry `/w/a` held with
`inuse = 1`, `cache_size = 4 > cache_limit = 2`), a GET of the uncached
`/b` triggers the scan: the in-use entry is removed from the path index,
unlinked, and its slot is reused for the new entry — it does not remain
in place as the claim requires.  The `if (ce->inuse)` branch at
static_server.c:521 only logs; it does not skip the entry. -/
theorem miss_eviction_frees_inuse_entry :
    entryInuse.inuse = 1 ∧
    (handleRequest envInuse hsmInuse freshSession ReqMethod.get (some "/b")).hsm.cache_evictions = 1 ∧
    bihashSearch (handleRequest envInuse hsmInuse freshSession ReqMethod.get (some "/b")).hsm.name_to_data "/w/a" = none ∧
    poolElt (handleRequest envInuse hsmInuse freshSession ReqMethod.get (some "/b")).hsm.cache_pool 0 =
      some { filename := "/w/b", data := "bbbb", inuse := 1, last_used := 7,
             prev_index := none, next_index := none } := by
  decide

/-- Claim C2 (code defect exhibited): a GET that resolves only on the
third stat attempt builds the raw 301 bytes into `hs->data`, but
`hs->data_len` is never set, so `start_send_data` enqueues exactly one
framed reply record `{code = 200 OK, len = 0}` and none of the redirect
bytes; the session is not disconnected (it still holds data).  The
response delivered to the transport is not the raw HTTP/1.1 301 bytes. -/
theorem redirect_sends_only_empty_reply_record :
    (handleRequest envRedirect hsmEmpty freshSession ReqMethod.get (some "/d")).items =
      [TxItem.record { code := 200, kind := DataKind.inline, len := 0 }] ∧
    (handleRequest envRedirect hsmEmpty freshSession ReqMethod.get (some "/d")).hs.data =
      some "HTTP/1.1 301 Moved Permanently\r\nLocation: http://1.2.3.4/d/index.html\r\n\r\n" ∧
    (handleRequest envRedirect hsmEmpty freshSession ReqMethod.get (some "/d")).hs.data_len = 0 ∧
    (handleRequest envRedirect hsmEmpty freshSession ReqMethod.get (some "/d")).disconnected = false := by
  decide

/-- Claim C5 counterexample: the scan does not stop as soon as
`cache_size ≤ cache_limit`.  On `hsmExactLimit` (three 2-byte entries,
size 6, limit 4) evicting the oldest entry brings the size to exactly
the limit, yet the source's scan (strict `<` at line 545) evicts a
second entry, whereas the claimed stop-at-`≤` scan evicts only one. -/
theorem eviction_continues_at_exact_limit :
    (missEvict hsmExactLimit).cache_evictions = 2 ∧
    (missEvictSpecLe hsmExactLimit).cache_evictions = 1 ∧
    poolElt (missEvict hsmExactLimit).cache_pool 1 = none ∧
    poolElt (missEvictSpecLe hsmExactLimit).cache_pool 1 =
      some { filename := "bb", data := "bb", inuse := 0, last_used := 2,
             prev_index := some 2, next_index := none } ∧
    missEvict hsmExactLimit ≠ missEvictSpecLe hsmExactLimit := by
  decide

/-- Claim C5 (amended): on a cache miss the eviction scan runs only when
`cache_size > cache_limit`; it repeatedly evicts the oldest (LRU tail)
entry — decrementing `cache_size` by the entry's data length and
incrementing `cache_evictions` via `evictOne` — and stops as soon as
`cache_size < cache_limit` (strictly below the limit) or the list is
exhausted. -/
theorem miss_eviction_matches_strict_stop_spec :
    ∀ hsm : HssMain, missEvict hsm = missEvictSpecLt hsm := by
  intro hsm
  unfold missEvict missEvictSpecLt
  by_cases h : hsm.cache_size > hsm.cache_limit
  · rw [if_pos h, if_pos h, evictLoop_eq_spec]
  · rw [if_neg h, if_neg h]

/-- Claim C3 counterexample: `clear` does not free every unreferenced
entry.  On `hsmBusyTail` (oldest entry in use, newer entry with
`inuse = 0`) the walk stops at the in-use tail: the unreferenced entry
`new` survives in the pool, the index, and the LRU, and the whole state
is unchanged; the reported busy count is 1. -/
theorem clear_leaves_unreferenced_entry :
    (clearCommand hsmBusyTail).2 = 1 ∧
    poolElt (clearCommand hsmBusyTail).1.cache_pool 1 = some entryNewFree ∧
    entryNewFree.inuse = 0 ∧
    (clearCommand hsmBusyTail).1 = hsmBusyTail := by
  decide

/-- Claim C3 (amended): starting from a state whose LRU tail has no
forward neighbour, `clear http static cache` repeatedly frees the
current oldest (LRU tail) entry while that entry is unreferenced —
removing it from the path index and the LRU, subtracting its data
length from `cache_size`, freeing filename and data via `evictOne` —
and stops at the first in-use tail entry, counting exactly that one
entry as busy; unreferenced entries newer than the first in-use entry
are not freed. -/
theorem clear_walk_matches_tail_stop_spec :
    ∀ hsm : HssMain, tailNextNone hsm = true → clearCommand hsm = clearCommandSpec hsm := by
  intro hsm h
  unfold clearCommand clearCommandSpec
  exact clearLoop_eq_spec _ hsm 0 h

/-- Witness for `clear_walk_matches_tail_stop_spec` at the concrete
state `hsmBusyTail`. -/
theorem clear_walk_matches_tail_stop_spec_witness :
    tailNextNone hsmBusyTail = true ∧ clearCommand hsmBusyTail = clearCommandSpec hsmBusyTail :=
  ⟨by decide, clear_walk_matches_tail_stop_spec hsmBusyTail (by decide)⟩

/-- Claim C4 counterexample: a framed message whose method is neither GET
nor POST gets the empty-body 405 reply, but the engine does not invoke
`hss_session_disconnect_transport` on that path (static_server.c
lines 611-617 return without disconnecting), and the cache state is
untouched. -/
theorem put_request_gets_405_without_disconnect :
    (hssTsRxCallback envInuse hsmEmpty freshSession msgPut "").items =
      [TxItem.record { code := 405, kind := DataKind.inline, len := 0 }] ∧
    (hssTsRxCallback envInuse hsmEmpty freshSession msgPut "").disconnected = false ∧
    (hssTsRxCallback envInuse hsmEmpty freshSession msgPut "").hsm = hsmEmpty := by
  decide

/-- Claim C4 (amended): for every dequeued message whose type is not
request or whose method is neither GET nor POST, the engine enqueues a
single reply record with status 405 and an empty body, mutates no cache
state, and does not disconnect the session (for a session with no
response in flight, `data_len = 0`). -/
theorem bad_method_sends_405_with_no_cache_mutation :
    ∀ (env : Env) (hsm : HssMain) (hs : Session) (msg : HttpMsg) (rx : String),
      (msg.type ≠ MsgType.request ∨ (msg.method ≠ ReqMethod.get ∧ msg.method ≠ ReqMethod.post)) →
      hs.data_len = 0 →
      (hssTsRxCallback env hsm hs msg rx).items =
        [TxItem.record { code := 405, kind := DataKind.inline, len := 0 }] ∧
      (hssTsRxCallback env hsm hs msg rx).hsm = hsm ∧
      (hssTsRxCallback env hsm hs msg rx).disconnected = false := by
  intro env hsm hs msg rx h1 h2
  unfold hssTsRxCallback
  rw [if_pos h1]
  unfold startSendData
  dsimp only
  rw [h2]
  simp

/-- Witness for `bad_method_sends_405_with_no_cache_mutation` at a
concrete PUT message against the in-use cache state. -/
theorem bad_method_sends_405_with_no_cache_mutation_witness :
    (hssTsRxCallback envRedirect hsmInuse holdingSession msgPut "x").items =
      [TxItem.record { code := 405, kind := DataKind.inline, len := 0 }] ∧
    (hssTsRxCallback envRedirect hsmInuse holdingSession msgPut "x").hsm = hsmInuse ∧
    (hssTsRxCallback envRedirect hsmInuse holdingSession msgPut "x").disconnected = false :=
  bad_method_sends_405_with_no_cache_mutation envRedirect hsmInuse holdingSession msgPut "x"
    (Or.inr ⟨by decide, by decide⟩) (by decide)

theorem inuse_poolUpdate (pool : List (Option CacheEntry)) (i : Nat)
    (f : CacheEntry → CacheEntry) (j : Nat) (hf : ∀ e, (f e).inuse = e.inuse) :
    (poolElt (poolUpdate pool i f) j).map CacheEntry.inuse =
    (poolElt pool j).map CacheEntry.inuse := by
  by_cases hij : i = j
  · subst hij
    rw [poolElt_poolUpdate_self]
    cases poolElt pool i <;> simp [hf]
  · rw [poolElt_poolUpdate_other _ _ _ _ hij]

theorem inuse_lru_remove (hsm : HssMain) (i j : Nat) :
    (poolElt (lru_remove hsm i).cache_pool j).map CacheEntry.inuse =
    (poolElt hsm.cache_pool j).map CacheEntry.inuse := by
  rw [lru_remove_pool]
  cases h : poolElt hsm.cache_pool i with
  | none => rfl
  | some ep =>
    dsimp only
    cases hn : ep.next_index <;> cases hp : ep.prev_index <;>
      simp [inuse_poolUpdate]

theorem inuse_lru_add (hsm : HssMain) (i now j : Nat) :
    (poolElt (lru_add hsm i now).cache_pool j).map CacheEntry.inuse =
    (poolElt hsm.cache_pool j).map CacheEntry.inuse := by
  unfold lru_add
  cases hfi : hsm.first_index with
  | none =>
    dsimp only
    by_cases hl : hsm.last_index.isNone = true <;>
      simp [hl, inuse_poolUpdate]
  | some fi =>
    dsimp only
    by_cases hl : hsm.last_index.isNone = true <;>
      simp [hl, inuse_poolUpdate]

theorem inuse_lru_update (hsm : HssMain) (i now j : Nat) :
    (poolElt (lru_update hsm i now).cache_pool j).map CacheEntry.inuse =
    (poolElt hsm.cache_pool j).map CacheEntry.inuse := by
  unfold lru_update
  rw [inuse_lru_add, inuse_lru_remove]

theorem lru_add_first (hsm : HssMain) (i now : Nat) :
    (lru_add hsm i now).first_index = some i := by
  unfold lru_add
  cases hfi : hsm.first_index <;>
    · dsimp only
      split <;> rfl

/-- Claim C6 (confirmed): releasing a held handle
(`hss_detach_cache_entry` with `cache_pool_index` set) decrements the
entry's `inuse` by exactly one; acquiring on a cache hit
(`handle_request` lines 489-502) increments it by exactly one and moves
the entry to the LRU front (`first_index`). -/
theorem release_and_acquire_adjust_refcount :
    (∀ (hsm : HssMain) (hs : Session) (i : Nat) (ce : CacheEntry),
      hs.cache_pool_index = some i →
      poolElt hsm.cache_pool i = some ce →
      1 ≤ ce.inuse →
      poolElt (hssDetachCacheEntry hsm hs).1.cache_pool i = some { ce with inuse := ce.inuse - 1 } ∧
      (ce.inuse - 1) + 1 = ce.inuse) ∧
    (∀ (hsm : HssMain) (hs : Session) (i now : Nat) (ce : CacheEntry),
      poolElt hsm.cache_pool i = some ce →
      (∃ ce2, poolElt (acquireCacheHit hsm hs i now ce).1.cache_pool i = some ce2 ∧
        ce2.inuse = ce.inuse + 1) ∧
      (acquireCacheHit hsm hs i now ce).1.first_index = some i) := by
  constructor
  · intro hsm hs i ce hcpi hce hge
    unfold hssDetachCacheEntry
    rw [hcpi]
    dsimp only
    refine ⟨?_, by omega⟩
    rw [poolElt_poolUpdate_self, hce]
    rfl
  · intro hsm hs i now ce hce
    unfold acquireCacheHit
    dsimp only
    constructor
    · have hmap : (poolElt (lru_update hsm i now).cache_pool i).map CacheEntry.inuse =
          some ce.inuse := by
        rw [inuse_lru_update, hce]
        rfl
      obtain ⟨ce1, hce1, hinuse1⟩ := Option.map_eq_some'.mp hmap
      refine ⟨{ ce1 with inuse := ce1.inuse + 1 }, ?_, by simp [hinuse1]⟩
      rw [poolElt_poolUpdate_self, hce1]
      rfl
    · show (lru_update hsm i now).first_index = some i
      unfold lru_update
      exact lru_add_first _ i now

/-- Witness for `release_and_acquire_adjust_refcount`: releasing the
held entry of `hsmInuse` drops its refcount from 1 to 0; a hit
acquisition on the same entry raises it to 2 and leaves it at the LRU
front. -/
theorem release_and_acquire_adjust_refcount_witness :
    poolElt (hssDetachCacheEntry hsmInuse holdingSession).1.cache_pool 0 =
      some { entryInuse with inuse := entryInuse.inuse - 1 } ∧
    (∃ ce2, poolElt (acquireCacheHit hsmInuse freshSession 0 9 entryInuse).1.cache_pool 0 = some ce2 ∧
      ce2.inuse = entryInuse.inuse + 1) ∧
    (acquireCacheHit hsmInuse freshSession 0 9 entryInuse).1.first_index = some 0 := by
  have h := release_and_acquire_adjust_refcount
  exact ⟨(h.1 hsmInuse holdingSession 0 entryInuse (by decide) (by decide) (by decide)).1,
    (h.2 hsmInuse freshSession 0 9 entryInuse (by decide)).1,
    (h.2 hsmInuse freshSession 0 9 entryInuse (by decide)).2⟩

theorem hrDone_sc (env : Env) (hsm : HssMain) (hs : Session) (sc : Nat) :
    (hrDone env hsm hs sc).sc = sc := by
  rfl

/-- The cache block only ever completes with status 200 or, on a read
failure, 500. -/
theorem hrCache_sc (env : Env) (hsm : HssMain) (hs : Session) (p : String) :
    (hrCache env hsm hs p).sc = 200 ∨ (hrCache env hsm hs p).sc = 500 := by
  unfold hrCache
  cases hd : hs.data.isSome
  · simp only [hd, Bool.false_eq_true, if_false]
    cases hb : bihashSearch hsm.name_to_data p with
    | some idx =>
      simp only []
      cases hpe : poolElt hsm.cache_pool idx with
      | none => left; exact hrDone_sc env hsm _ 200
      | some ce => left; exact hrDone_sc env _ _ 200
    | none =>
      unfold cacheMiss
      cases hfo : env.fileO p with
      | none => simp only [hfo]; right; exact hrDone_sc env _ _ 500
      | some bytes => simp only [hfo]; left; exact hrDone_sc env _ _ 200
  · simp only [hd, if_true]
    left
    exact hrDone_sc env hsm hs 200

/-- Claim C7 (confirmed): with URL handlers disabled and `www_root` set,
the resolver builds `www_root ++ request` when the request starts with
'/', `www_root ++ "/" ++ request` otherwise, bare `www_root` with no
request; and it answers 404 exactly when the constructed path, the path
with `index.html` appended without separator, and the path with
`/index.html` appended all fail the stat test (`fileOk`). -/
theorem resolver_tries_three_paths_then_404 :
    ∀ (env : Env) (hsm : HssMain) (hs : Session) (rt : ReqMethod) (req : Option String) (w : String),
      env.enable_url_handlers = false →
      env.www_root = some w →
      (mkPath w none = w ∧
       (∀ r : String, r.data.head? = some '/' → mkPath w (some r) = w ++ r) ∧
       (∀ r : String, r.data.head? ≠ some '/' → mkPath w (some r) = w ++ "/" ++ r)) ∧
      ((handleRequest env hsm hs rt req).sc = 404 ↔
        (fileOk (env.statO (mkPath w req)) = false ∧
         fileOk (env.statO (mkPath w req ++ "index.html")) = false ∧
         fileOk (env.statO (mkPath w req ++ "/index.html")) = false)) := by
  intro env hsm hs rt req w hu hw
  have hhandler : tryUrlHandler env hsm hs rt req = none := by
    unfold tryUrlHandler
    rw [hu]
    simp
  constructor
  · refine ⟨rfl, ?_, ?_⟩
    · intro r hr
      simp [mkPath, hr]
    · intro r hr
      simp [mkPath, hr]
  · unfold handleRequest
    rw [hhandler, hw]
    cases h1 : fileOk (env.statO (mkPath w req))
    · cases h2 : fileOk (env.statO (mkPath w req ++ "index.html"))
      · cases h3 : fileOk (env.statO (mkPath w req ++ "/index.html"))
        · simp [h1, h2, h3, hrDone_sc]
        · simp [h1, h2, h3, hrDone_sc]
      · rcases hrCache_sc env hsm hs (mkPath w req ++ "index.html") with h | h <;>
          simp [h1, h2, h]
    · rcases hrCache_sc env hsm hs (mkPath w req) with h | h <;>
        simp [h1, h]

/-- Witness for `resolver_tries_three_paths_then_404`: under
`envRedirect` a GET of `/nope` finds none of the three candidate files
and the handler returns 404. -/
theorem resolver_tries_three_paths_then_404_witness :
    (handleRequest envRedirect hsmEmpty freshSession ReqMethod.get (some "/nope")).sc = 404 := by
  have h := resolver_tries_three_paths_then_404 envRedirect hsmEmpty freshSession
    ReqMethod.get (some "/nope") "/w" (by decide) (by decide)
  exact h.2.mpr (by decide)

/-- Claim C8 (confirmed): `start_send_data` always enqueues the framed
reply record first, even for a zero-length body; exactly when
`data_len > use_ptr_thresh` the record is in ptr mode and is followed by
the single machine-word pointer value; otherwise body bytes follow
inline only when `data_len` is non-zero, and when the queue accepts only
a prefix of length `rv = min cap data_len`, `data_offset` is set to `rv`
and a dequeue notification is requested. -/
theorem start_send_data_framing :
    ∀ (thresh : Nat) (hs : Session) (status cap : Nat),
      ((startSendData thresh hs status cap).1.head? =
        some (TxItem.record
          ⟨status, if thresh < hs.data_len then DataKind.ptr else DataKind.inline,
            hs.data_len⟩)) ∧
      (TxItem.ptrWord ∈ (startSendData thresh hs status cap).1 ↔ thresh < hs.data_len) ∧
      (thresh < hs.data_len →
        (startSendData thresh hs status cap).1 =
          [TxItem.record { code := status, kind := DataKind.ptr, len := hs.data_len },
           TxItem.ptrWord]) ∧
      (¬ thresh < hs.data_len → hs.data_len = 0 →
        (startSendData thresh hs status cap).1 =
          [TxItem.record { code := status, kind := DataKind.inline, len := 0 }]) ∧
      (¬ thresh < hs.data_len → hs.data_len ≠ 0 →
        (startSendData thresh hs status cap).1 =
          [TxItem.record { code := status, kind := DataKind.inline, len := hs.data_len },
           TxItem.bytes (strTake (min cap hs.data_len) (hs.data.getD ""))] ∧
        (min cap hs.data_len ≠ hs.data_len →
          (startSendData thresh hs status cap).2.1.data_offset = min cap hs.data_len ∧
          (startSendData thresh hs status cap).2.2 = true) ∧
        (min cap hs.data_len = hs.data_len →
          (startSendData thresh hs status cap).2.1 = hs ∧
          (startSendData thresh hs status cap).2.2 = false)) := by
  intro thresh hs status cap
  unfold startSendData
  by_cases hp : hs.data_len > thresh
  · simp [hp]
  · by_cases h0 : hs.data_len = 0
    · simp [hp, h0]
    · by_cases hrv : min cap hs.data_len ≠ hs.data_len
      · simp [hp, h0, hrv]
      · simp [hp, h0, hrv]

/-- Witness for `start_send_data_framing` at three concrete inputs: a
4-byte body over a 3-byte pointer threshold (ptr mode), the same body
inline with a 2-byte queue (partial enqueue sets `data_offset` and
requests notification), and a zero-length body (record only). -/
theorem start_send_data_framing_witness :
    (startSendData 3 { freshSession with data := some "aaaa", data_len := 4 } 200 2).1 =
      [TxItem.record { code := 200, kind := DataKind.ptr, len := 4 }, TxItem.ptrWord] ∧
    (startSendData 100 { freshSession with data := some "aaaa", data_len := 4 } 200 2).1 =
      [TxItem.record { code := 200, kind := DataKind.inline, len := 4 },
       TxItem.bytes (strTake 2 "aaaa")] ∧
    (startSendData 100 { freshSession with data := some "aaaa", data_len := 4 } 200 2).2.1.data_offset = 2 ∧
    (startSendData 100 { freshSession with data := some "aaaa", data_len := 4 } 200 2).2.2 = true ∧
    (startSendData 100 freshSession 200 2).1 =
      [TxItem.record { code := 200, kind := DataKind.inline, len := 0 }] := by
  have hptr := (start_send_data_framing 3 { freshSession with data := some "aaaa", data_len := 4 }
    200 2).2.2.1 (by decide)
  have hinl := (start_send_data_framing 100 { freshSession with data := some "aaaa", data_len := 4 }
    200 2).2.2.2.2 (by decide) (by decide)
  have hzero := (start_send_data_framing 100 freshSession 200 2).2.2.2.1 (by decide) (by decide)
  exact ⟨hptr, hinl.1, (hinl.2.1 (by decide)).1, (hinl.2.1 (by decide)).2, hzero⟩

/-- Claim C9 (confirmed): the start command fails with a textual error —
and does not create the server — whenever it is already running, or
neither `www-root` nor `url-handlers` is configured, or the configured
cache size is below 128 KiB; when none of those hold, the input parses,
and `hss_create` succeeds, the command succeeds and the server exists. -/
theorem create_command_gates :
    ∀ inp : CreateInput,
      ((inp.already_running = true ∨ (inp.www_root = none ∧ inp.enable_url_handlers = false) ∨
          inp.cache_limit < 128 * 1024) →
        ∃ m, hssCreateCommand inp = (CreateResult.err m, false)) ∧
      (inp.already_running = false → inp.parse_error = false →
        ¬ (inp.www_root = none ∧ inp.enable_url_handlers = false) →
        128 * 1024 ≤ inp.cache_limit → inp.create_rv = 0 →
        hssCreateCommand inp = (CreateResult.ok, true)) := by
  intro inp
  constructor
  · intro h
    unfold hssCreateCommand
    split_ifs with h1 h2 h3 h4 h5
    · exact ⟨_, rfl⟩
    · exact ⟨_, rfl⟩
    · exact ⟨_, rfl⟩
    · exact ⟨_, rfl⟩
    · exact ⟨_, rfl⟩
    · exfalso
      rcases h with h | ⟨hw, hu⟩ | h
      · exact h1 h
      · exact h3 (by simp [hw, hu])
      · exact h4 h
  · intro h1 h2 h3 h4 h5
    have hb : (inp.www_root.isNone && !inp.enable_url_handlers) = false := by
      cases hwr : inp.www_root with
      | some v => simp [hwr]
      | none =>
        have hut : inp.enable_url_handlers = true := by
          by_contra hcon
          exact h3 ⟨hwr, by simpa using hcon⟩
        simp [hut]
    unfold hssCreateCommand
    rw [if_neg (by simp [h1]), if_neg (by simp [h2]), if_neg (by simp [hb]),
      if_neg (by omega), if_neg (by simp [h5])]

/-- Witness for `create_command_gates`: both a failing input (cache size
64 KiB) and a passing input are decided as the theorem states. -/
theorem create_command_gates_witness :
    (∃ m, hssCreateCommand ⟨false, false, some "/w", false, 64 * 1024, 0⟩ =
      (CreateResult.err m, false)) ∧
    hssCreateCommand ⟨false, false, some "/w", false, 256 * 1024, 0⟩ =
      (CreateResult.ok, true) := by
  constructor
  · exact (create_command_gates _).1 (Or.inr (Or.inr (by decide)))
  · exact (create_command_gates _).2 rfl rfl (by simp) (by decide) rfl

/-- Claim C10 (confirmed): the final cleanup of a session whose
`cache_pool_index` is the none sentinel leaves the whole cache state
(entry pool, LRU, path index, `cache_size`, eviction counter) unchanged,
returns the session slot, and frees only the session's owned response
buffer (and that only when `free_data` is set) and its path; a freshly
allocated session starts with `cache_pool_index = none`. -/
theorem cleanup_without_handle_preserves_cache :
    (∀ (hsm : HssMain) (hs : Session),
      hs.cache_pool_index = none →
      (hssTsCleanup hsm (some hs) CleanupKind.session).1 = hsm ∧
      (hssTsCleanup hsm (some hs) CleanupKind.session).2.1 = none ∧
      (∀ f ∈ (hssTsCleanup hsm (some hs) CleanupKind.session).2.2,
        (f = FreedRes.dataBuf ∧ hs.free_data = true) ∨ f = FreedRes.pathBuf)) ∧
    (∀ idx thread : Nat, (hssSessionAlloc idx thread).cache_pool_index = none) := by
  constructor
  · intro hsm hs h
    unfold hssTsCleanup hssDetachCacheEntry
    dsimp only
    rw [h]
    dsimp only
    refine ⟨rfl, rfl, ?_⟩
    intro f hf
    rw [List.mem_append] at hf
    rcases hf with hf | hf
    · by_cases h1 : (hs.free_data && hs.data.isSome) = true
      · rw [if_pos h1] at hf
        simp only [List.mem_singleton] at hf
        subst hf
        have h1' : hs.free_data = true ∧ hs.data.isSome = true := by simpa using h1
        exact Or.inl ⟨rfl, h1'.1⟩
      · rw [if_neg h1] at hf
        simp at hf
    · by_cases h2 : hs.path.isSome = true
      · rw [if_pos h2] at hf
        simp only [List.mem_singleton] at hf
        subst hf
        exact Or.inr rfl
      · rw [if_neg h2] at hf
        simp at hf
  · intro idx thread
    rfl

/-- Witness for `cleanup_without_handle_preserves_cache`: cleaning up a
fresh session against the in-use cache state changes nothing. -/
theorem cleanup_without_handle_preserves_cache_witness :
    (hssTsCleanup hsmInuse (some freshSession) CleanupKind.session).1 = hsmInuse ∧
    (hssTsCleanup hsmInuse (some freshSession) CleanupKind.session).2.1 = none ∧
    (hssSessionAlloc 3 1).cache_pool_index = none := by
  have h := cleanup_without_handle_preserves_cache
  exact ⟨(h.1 hsmInuse freshSession (by decide)).1, (h.1 hsmInuse freshSession (by decide)).2.1,
    h.2 3 1⟩
